import Mathlib

/-!
Shallow embedding of the Seedream image-generation chat plugin
(`src/main.py`) and proofs of behavioural properties: configuration size
validation, per-user admission control (cooldown and duplicate
suppression), the provider API call with its error-code mapping, reference
image URL extraction, and the retention sweep over generated files.

Network I/O, the filesystem and JSON decoding are abstracted by oracle
values (`ApiResponse`, `DownloadResult`) describing what the external world
answered; everything the plugin itself computes is embedded directly.
Python floats (timestamps, retention hours) are modelled as rationals.
-/

namespace Seedream

/-- Minimum pixel count accepted by the provider (`MIN_PIXELS` in `main.py`). -/
def MIN_PIXELS : Nat := 3686400

/-- Seconds between two sweeps that do real work (`CLEANUP_INTERVAL`). -/
def CLEANUP_INTERVAL : ℚ := 3600

/-- True on the separator characters accepted by the size pattern
`^(\d+)x(\d+)$` when compiled with `re.IGNORECASE`: both `x` and `X`. -/
def isSizeSep (c : Char) : Bool := c == 'x' || c == 'X'

/-- Splits a character list at its unique separator (with respect to `sep`):
returns the parts before and after when there is exactly one separator
character, `none` otherwise.  Since a digit is never a separator, the
anchored match of `digits separator digits` reduces to this split. -/
def splitOnSepBy (sep : Char → Bool) : List Char → Option (List Char × List Char)
  | [] => none
  | c :: cs =>
    if sep c then
      if cs.any sep then none else some ([], cs)
    else
      match splitOnSepBy sep cs with
      | some (a, b) => some (c :: a, b)
      | none => none

/-- The number denoted by a list of decimal digits. -/
def digitsToNat (cs : List Char) : Nat :=
  cs.foldl (fun n c => n * 10 + (c.toNat - 48)) 0

/-- The regex match `^(\d+)x(\d+)$` with `re.IGNORECASE` as compiled in
`_validate_image_size`: `some (width, height)` on a match, else `none`. -/
def sizeMatch (s : String) : Option (Nat × Nat) :=
  match splitOnSepBy isSizeSep s.toList with
  | some (a, b) =>
    if !a.isEmpty && !b.isEmpty && a.all Char.isDigit && b.all Char.isDigit then
      some (digitsToNat a, digitsToNat b)
    else none
  | none => none

/-- The size pattern as the spec words it, `^\d+x\d+$` with a lowercase `x`
only (no `IGNORECASE`); a comparison definition following the spec wording,
to be held against the code pattern `sizeMatch`. -/
def specSizeMatchLowercase (s : String) : Option (Nat × Nat) :=
  match splitOnSepBy (fun c => c == 'x') s.toList with
  | some (a, b) =>
    if !a.isEmpty && !b.isEmpty && a.all Char.isDigit && b.all Char.isDigit then
      some (digitsToNat a, digitsToNat b)
    else none
  | none => none

/-- `_validate_image_size` (lines 109-127): the size to use plus an error
string, empty when the configured size is valid. -/
def validate_image_size (size_str : String) : String × String :=
  match sizeMatch size_str with
  | none => ("1920x1920", "尺寸格式错误（" ++ size_str ++ "），需为WxH格式")
  | some (width, height) =>
    if width * height < MIN_PIXELS then
      ("1920x1920",
       "像素总数不足（" ++ toString (width * height) ++ " < " ++ toString MIN_PIXELS ++ "）")
    else if width > 8192 ∨ height > 8192 then
      ("4096x4096",
       "边长过大（" ++ toString width ++ "x" ++ toString height ++ "），已调整为4096x4096")
    else
      (size_str, "")

/-- The size a plugin instance actually uses for generation requests, as
computed in `__init__` (lines 41-44): the validated size, overridden to
"1920x1920" whenever `_validate_image_size` reported any warning.  The
input is the configured size string after `strip()`. -/
def resolvedSize (image_size : String) : String :=
  let vs := validate_image_size image_size
  if vs.2 ≠ "" then "1920x1920" else vs.1

/-- Per-user admission state of the plugin: the `last_operations` dict as an
association list and the `processing_users` set as a list. -/
structure GuardState where
  last_operations : List (String × ℚ)
  processing_users : List String
deriving DecidableEq, Repr

/-- Python dict assignment `self.last_operations[user_id] = t`: one entry
per key, the new binding replacing any old one. -/
def dictInsert (l : List (String × ℚ)) (user_id : String) (t : ℚ) :
    List (String × ℚ) :=
  (user_id, t) :: l.filter (fun p => p.1 != user_id)

/-- The cooldown test of `generate_image` (lines 342-343): the user has a
recorded last operation less than `rate_limit_seconds = 10` seconds ago. -/
def cooldownHit (st : GuardState) (user_id : String) (now : ℚ) : Bool :=
  match st.last_operations.lookup user_id with
  | some t => decide (now - t < 10)
  | none => false

/-- The provider error envelope `{error: {code, message}}`; `none` models an
absent key (so Python `.get` falls back to its default). -/
structure JsonErrorEnvelope where
  code : Option String
  message : Option String
deriving DecidableEq, Repr

/-- A JSON-decodable provider response: HTTP status, error envelope, and the
`data` array reduced to each item's `url` field, where "" models a missing
or empty url (both falsy in Python). -/
structure JsonResponse where
  status : Nat
  error : JsonErrorEnvelope
  data : List String
deriving DecidableEq, Repr

/-- Oracle for what the provider answered to the generation POST. -/
inductive ApiResponse where
  | netFail (msg : String)
  | notJson (text : String)
  | json (r : JsonResponse)
deriving DecidableEq, Repr

/-- The error-code table of `_call_seedream_api` (lines 284-289). -/
def error_mapping : List (String × String) :=
  [("InvalidParameter", "参数错误"),
   ("Unauthorized", "API KEY无效或未授权"),
   ("Forbidden", "API KEY无使用权限"),
   ("TooManyRequests", "调用频率超限")]

/-- The JSON body built by `_call_seedream_api` (lines 245-254). -/
structure Payload where
  model : String
  prompt : String
  size : String
  watermark : Bool
  image : Option (List String)
deriving DecidableEq, Repr

/-- Builds the request body: model id, stripped prompt with a generic
default when empty, resolved size, watermark off, and the reference image
list only when nonempty.  `String.trim` models Python `str.strip`. -/
def buildPayload (model_version valid_size prompt : String)
    (image_urls : List String) : Payload :=
  { model := model_version
    prompt := if prompt.trim = "" then "高质量高清图片" else prompt.trim
    size := valid_size
    watermark := false
    image := if image_urls.length > 0 then some image_urls else none }

/-- `_call_seedream_api` (lines 239-308): `.ok url` on success, `.error m`
with the message of the exception that escapes the function.  The POST
itself is the `resp` oracle; the body it would carry is `buildPayload`.
A raise inside the outer `try` is re-wrapped by the broad
`except Exception` into an "API调用失败" message, while the empty-key raise
(before the `try`) and the `aiohttp.ClientError` re-raise escape as is. -/
def call_seedream_api (api_key model_version valid_size : String)
    (prompt : String) (image_urls : List String) (resp : ApiResponse) :
    Except String String :=
  if api_key = "" then
    Except.error "VOLC_API_KEY未配置"
  else
    let _payload := buildPayload model_version valid_size prompt image_urls
    match resp with
    | ApiResponse.netFail m => Except.error ("网络请求失败：" ++ m)
    | ApiResponse.notJson text =>
      Except.error ("API调用失败：" ++ ("API返回非JSON格式响应：" ++ text.take 200))
    | ApiResponse.json r =>
      if r.status ≠ 200 then
        let error_msg :=
          r.error.message.getD ("请求失败 [HTTP " ++ toString r.status ++ "]")
        let error_code := r.error.code.getD ""
        let final_msg :=
          match error_mapping.lookup error_code with
          | some friendly => friendly ++ "：" ++ error_msg
          | none => error_msg
        Except.error ("API调用失败：" ++ final_msg)
      else
        match r.data with
        | [] => Except.error ("API调用失败：" ++ "API返回无图片数据")
        | url :: _ =>
          if url = "" then Except.error ("API调用失败：" ++ "API返回无图片URL")
          else Except.ok url

/-- Oracle for the image GET and byte write in `_download_generated_image`. -/
inductive DownloadResult where
  | ok (path : String)
  | httpFail (status : Nat)
  | fail (msg : String)
deriving DecidableEq, Repr

/-- `_download_generated_image` (lines 175-215), the GET, URL re-encoding
and file write abstracted by the `dl` oracle: `.ok local_path` on success.
The invalid-URL raise sits before the `try`, so it is not re-wrapped. -/
def download_generated_image (url : String) (dl : DownloadResult) :
    Except String String :=
  if url = "" ∨ ¬ url.startsWith "http" then
    Except.error "无效的图片URL"
  else
    match dl with
    | DownloadResult.ok path => Except.ok path
    | DownloadResult.httpFail status =>
      Except.error ("图片下载失败: " ++ ("下载失败 [HTTP " ++ toString status ++ "]"))
    | DownloadResult.fail m => Except.error ("图片下载失败: " ++ m)

/-- A message yielded back to the chat: a plain text, or the final chain of
an optional reply reference, the image file and its caption. -/
inductive Reply where
  | plain (text : String)
  | chain (hasReplyRef : Bool) (imagePath : String) (caption : String)
deriving DecidableEq, Repr

/-- Everything observable about one run of the command: final guard state,
the replies yielded in order, whether the provider-call stage was reached,
and the path of the image file written, if any. -/
structure CmdResult where
  state : GuardState
  replies : List Reply
  apiCalled : Bool
  fileCreated : Option String
deriving DecidableEq, Repr

/-- The `finally` block (lines 386-388):
`if user_id in processing_users: processing_users.remove(user_id)`. -/
def admitFinally (l : List String) (user_id : String) : List String :=
  if user_id ∈ l then l.erase user_id else l

/-- The command handler `generate_image` (lines 313-388) on one message
whose stripped prompt is `real_prompt` and whose extracted image URL list
is `image_urls`; `resp` and `dl` are the oracles for the two HTTP calls and
`hasMsgId` says whether the triggering message carries a `message_id`. -/
def generate_image (st : GuardState) (user_id : String) (now : ℚ)
    (real_prompt : String) (image_urls : List String)
    (api_key model_version valid_size : String)
    (resp : ApiResponse) (dl : DownloadResult) (hasMsgId : Bool) : CmdResult :=
  if cooldownHit st user_id now then
    ⟨st, [Reply.plain "操作过快，请稍后再试"], false, none⟩
  else
    let st₁ : GuardState :=
      { st with last_operations := dictInsert st.last_operations user_id now }
    if user_id ∈ st₁.processing_users then
      ⟨st₁, [Reply.plain "有正在进行的生图任务，请稍候"], false, none⟩
    else if real_prompt = "" ∧ image_urls = [] then
      ⟨st₁, [Reply.plain "请提供提示词或图片"], false, none⟩
    else
      let st₂ : GuardState :=
        { st₁ with processing_users := user_id :: st₁.processing_users }
      let stF : GuardState :=
        { st₂ with processing_users := admitFinally st₂.processing_users user_id }
      match call_seedream_api api_key model_version valid_size real_prompt image_urls resp with
      | Except.error msg =>
        ⟨stF, [Reply.plain "开始生成图片...", Reply.plain ("生成失败：" ++ msg)],
         true, none⟩
      | Except.ok url =>
        match download_generated_image url dl with
        | Except.error msg =>
          ⟨stF, [Reply.plain "开始生成图片...", Reply.plain ("生成失败：" ++ msg)],
           true, none⟩
        | Except.ok path =>
          ⟨stF,
           [Reply.plain "开始生成图片...",
            Reply.chain hasMsgId path
              ("生成完成\n提示词：" ++ (if real_prompt = "" then "纯图生图" else real_prompt))],
           true, some path⟩

/-- The mutable state the retention sweep reads and writes: the configured
retention (hours), the last-sweep timestamp, the image directory content as
(name, mtime) pairs, and whether the directory exists. -/
structure SweepState where
  retention_hours : ℚ
  last_cleanup_time : ℚ
  files : List (String × ℚ)
  dirExists : Bool
deriving DecidableEq, Repr

/-- Result of one call to the sweep: the new state, whether the sweep lock
was acquired, and the files removed. -/
structure SweepResult where
  state : SweepState
  lockAcquired : Bool
  deleted : List (String × ℚ)
deriving DecidableEq, Repr

/-- `_cleanup_temp_files` (lines 132-173), one sequential invocation: the
`retention_hours <= 0` early return sits before the lock; the interval
check and the actual work happen under the lock.  A per-file `os.remove`
failure only skips that file and is logged; deletion is modelled as
succeeding. -/
def cleanup_temp_files (st : SweepState) (now : ℚ) : SweepResult :=
  if st.retention_hours ≤ 0 then
    ⟨st, false, []⟩
  else if now - st.last_cleanup_time < CLEANUP_INTERVAL then
    ⟨st, true, []⟩
  else if st.dirExists = false then
    ⟨{ st with last_cleanup_time := now }, true, []⟩
  else
    let retention_seconds := st.retention_hours * 3600
    ⟨{ st with
        last_cleanup_time := now
        files := st.files.filter (fun f => !(decide (now - f.2 > retention_seconds))) },
     true,
     st.files.filter (fun f => decide (now - f.2 > retention_seconds))⟩

/-- A message component: an image with its possibly-empty `url` and
`file_id` attributes ("" models an absent or falsy attribute), or any
non-image component. -/
inductive MsgComponent where
  | image (url : String) (file_id : String)
  | other
deriving DecidableEq, Repr

/-- The URL one image component yields in `_extract_image_url_list`
(lines 224-229): `url.strip()` when `url` is truthy, else the gchat
template over the escaped `file_id`, else "". -/
def componentUrl (url file_id : String) : String :=
  if url ≠ "" then url.trim
  else if file_id ≠ "" then
    "https://gchat.qpic.cn/gchatpic_new/0/0-0-" ++ file_id.replace "/" "_"
      ++ "/0?tp=webp&wxfrom=5&wx_lazy=1"
  else ""

/-- The loop of `_extract_image_url_list` with accumulator `acc`, the
growing `image_urls` list. -/
def extractAux : List MsgComponent → List String → List String
  | [], acc => acc
  | MsgComponent.other :: rest, acc => extractAux rest acc
  | MsgComponent.image u fid :: rest, acc =>
    let img := componentUrl u fid
    if img ≠ "" ∧ img ∉ acc then extractAux rest (acc ++ [img])
    else extractAux rest acc

/-- `_extract_image_url_list` (lines 217-234). -/
def extract_image_url_list (comps : List MsgComponent) : List String :=
  extractAux comps []

/-- The raw URL sequence of the message's image components before the
duplicate filter: one entry per image component producing a nonempty URL,
in message order. -/
def rawUrls : List MsgComponent → List String
  | [] => []
  | MsgComponent.other :: rest => rawUrls rest
  | MsgComponent.image u fid :: rest =>
    let img := componentUrl u fid
    if img ≠ "" then img :: rawUrls rest else rawUrls rest

/-- The order-of-first-occurrence deduplication, as a recursive definition
following the claim's wording: the head of the sequence is kept (its first
occurrence) and every later duplicate of it is removed from the
deduplicated tail, so each distinct entry appears exactly once, at the
position of its first occurrence. -/
def specKeepFirstOccurrence : List String → List String
  | [] => []
  | a :: l => a :: (specKeepFirstOccurrence l).filter (fun b => !(decide (b = a)))

/-- The duplicate-suppressing accumulation of `_extract_image_url_list`,
restated on the raw URL sequence: append each entry to the collected list
unless already present. -/
def dedupSeen : List String → List String → List String
  | [], acc => acc
  | a :: l, acc => if a ∈ acc then dedupSeen l acc else dedupSeen l (acc ++ [a])

/-! ## Helper lemmas -/

theorem admitFinally_cons_self (l : List String) (u : String) :
    admitFinally (u :: l) u = l := by
  simp [admitFinally, List.erase_cons_head]

theorem lookup_dictInsert (l : List (String × ℚ)) (u : String) (t : ℚ) :
    (dictInsert l u t).lookup u = some t := by
  simp [dictInsert, List.lookup]

theorem extractAux_nodup (comps : List MsgComponent) (acc : List String)
    (h : acc.Nodup) : (extractAux comps acc).Nodup := by
  induction comps generalizing acc with
  | nil => simpa [extractAux] using h
  | cons c rest ih =>
    cases c with
    | other => exact ih acc h
    | image uu fid =>
      simp only [extractAux]
      split
      · next hc =>
        refine ih _ ?_
        rw [List.nodup_append_comm]
        simpa using List.nodup_cons.mpr ⟨hc.2, h⟩
      · exact ih acc h

theorem mem_extractAux (comps : List MsgComponent) (acc : List String)
    (u : String) :
    u ∈ extractAux comps acc ↔ u ∈ acc ∨ u ∈ rawUrls comps := by
  induction comps generalizing acc with
  | nil => simp [extractAux, rawUrls]
  | cons c rest ih =>
    cases c with
    | other => simp [extractAux, rawUrls, ih]
    | image uu fid =>
      simp only [extractAux, rawUrls]
      by_cases h1 : componentUrl uu fid ≠ ""
      · by_cases h2 : componentUrl uu fid ∈ acc
        · rw [if_neg (by tauto), if_pos h1, ih]
          constructor
          · rintro (h | h)
            · exact Or.inl h
            · exact Or.inr (List.mem_cons_of_mem _ h)
          · rintro (h | h)
            · exact Or.inl h
            · rcases List.mem_cons.mp h with rfl | h
              · exact Or.inl h2
              · exact Or.inr h
        · rw [if_pos ⟨h1, h2⟩, if_pos h1, ih]
          simp only [List.mem_append, List.mem_singleton, List.mem_cons]
          tauto
      · push_neg at h1
        rw [if_neg (fun hc => hc.1 h1), if_neg (fun hne => hne h1)]
        exact ih acc

theorem extractAux_append_sublist (comps : List MsgComponent)
    (acc : List String) :
    ∃ ext, extractAux comps acc = acc ++ ext ∧ ext.Sublist (rawUrls comps) := by
  induction comps generalizing acc with
  | nil => exact ⟨[], by simp [extractAux], by simp [rawUrls]⟩
  | cons c rest ih =>
    cases c with
    | other =>
      obtain ⟨ext, he, hs⟩ := ih acc
      exact ⟨ext, by simpa [extractAux] using he, by simpa [rawUrls] using hs⟩
    | image uu fid =>
      by_cases h1 : componentUrl uu fid ≠ ""
      · by_cases h2 : componentUrl uu fid ∈ acc
        · obtain ⟨ext, he, hs⟩ := ih acc
          refine ⟨ext, ?_, ?_⟩
          · simp only [extractAux]
            rw [if_neg (by tauto)]
            exact he
          · simp only [rawUrls]
            rw [if_pos h1]
            exact hs.cons _
        · obtain ⟨ext, he, hs⟩ := ih (acc ++ [componentUrl uu fid])
          refine ⟨componentUrl uu fid :: ext, ?_, ?_⟩
          · simp only [extractAux]
            rw [if_pos ⟨h1, h2⟩, he, List.append_assoc]
            rfl
          · simp only [rawUrls]
            rw [if_pos h1]
            exact hs.cons₂ _
      · push_neg at h1
        obtain ⟨ext, he, hs⟩ := ih acc
        refine ⟨ext, ?_, ?_⟩
        · simp only [extractAux]
          rw [if_neg (fun hc => hc.1 h1)]
          exact he
        · simp only [rawUrls]
          rw [if_neg (fun hne => hne h1)]
          exact hs

theorem extractAux_eq_dedupSeen (comps : List MsgComponent)
    (acc : List String) :
    extractAux comps acc = dedupSeen (rawUrls comps) acc := by
  induction comps generalizing acc with
  | nil => rfl
  | cons c rest ih =>
    cases c with
    | other => exact ih acc
    | image uu fid =>
      simp only [extractAux, rawUrls]
      by_cases h1 : componentUrl uu fid ≠ ""
      · rw [if_pos h1]
        by_cases h2 : componentUrl uu fid ∈ acc
        · rw [if_neg (by tauto)]
          simp only [dedupSeen]
          rw [if_pos h2]
          exact ih acc
        · rw [if_pos ⟨h1, h2⟩]
          simp only [dedupSeen]
          rw [if_neg h2]
          exact ih _
      · push_neg at h1
        rw [if_neg (fun hc => hc.1 h1), if_neg (fun hne => hne h1)]
        exact ih acc

theorem dedupSeen_eq_spec (l : List String) (acc : List String) :
    dedupSeen l acc =
      acc ++ (specKeepFirstOccurrence l).filter (fun b => decide (b ∉ acc)) := by
  induction l generalizing acc with
  | nil => simp [dedupSeen, specKeepFirstOccurrence]
  | cons a l ih =>
    simp only [dedupSeen, specKeepFirstOccurrence]
    by_cases h : a ∈ acc
    · rw [if_pos h, ih, List.filter_cons]
      have hda : decide (a ∉ acc) = false := by simp [h]
      rw [hda]
      simp only [Bool.false_eq_true, if_false]
      rw [List.filter_filter]
      have hpred : (fun b => decide (b ∉ acc)) =
          (fun b => decide (b ∉ acc) && !(decide (b = a))) := by
        funext b
        by_cases hb : b = a
        · subst hb
          simp [h]
        · simp [hb]
      rw [hpred]
    · rw [if_neg h, ih, List.filter_cons]
      have hda : decide (a ∉ acc) = true := by simp [h]
      rw [hda]
      simp only [if_true]
      rw [List.filter_filter, List.append_assoc]
      have hpred : (fun b => decide (b ∉ acc ++ [a])) =
          (fun b => decide (b ∉ acc) && !(decide (b = a))) := by
        funext b
        simp [List.mem_append, not_or]
      rw [hpred]
      rfl

theorem dedupSeen_nil_eq_spec (l : List String) :
    dedupSeen l [] = specKeepFirstOccurrence l := by
  rw [dedupSeen_eq_spec]
  simp

/-! ## Claim theorems -/

/-- C2 (code bug evidence): for the configured size "9000x9000", whose
width and height both exceed 8192, `_validate_image_size` itself returns
the documented "4096x4096" fallback together with a warning that even says
"adjusted to 4096x4096", but `__init__` overrides any warned size to
"1920x1920", so generation requests use "1920x1920", not "4096x4096". -/
theorem oversize_size_overridden_to_1920 :
    validate_image_size "9000x9000" =
      ("4096x4096", "边长过大（9000x9000），已调整为4096x4096") ∧
    resolvedSize "9000x9000" = "1920x1920" := by
  constructor <;> rfl

/-- C8 counterexample: "4096X4096" does not match the lowercase pattern
`^\d+x\d+$` the claim names, yet the code pattern (compiled with
`re.IGNORECASE`) accepts it, so no warning is produced and the resolved
size is "4096X4096" rather than the fallback. -/
theorem uppercase_separator_size_accepted :
    specSizeMatchLowercase "4096X4096" = none ∧
    sizeMatch "4096X4096" = some (4096, 4096) ∧
    validate_image_size "4096X4096" = ("4096X4096", "") ∧
    resolvedSize "4096X4096" = "4096X4096" := by
  exact ⟨rfl, rfl, rfl, rfl⟩

/-- C8 amended: for every configured size string not matching the code's
pattern `^\d+x\d+$` compiled case-insensitively (so an uppercase X
separator is also accepted), the resolved size is the documented fallback
"1920x1920" and a nonempty warning string is produced. -/
theorem nonmatching_size_falls_back (s : String)
    (h : sizeMatch s = none) :
    validate_image_size s =
      ("1920x1920", "尺寸格式错误（" ++ s ++ "），需为WxH格式") ∧
    (validate_image_size s).2 ≠ "" ∧
    resolvedSize s = "1920x1920" := by
  have hv : validate_image_size s =
      ("1920x1920", "尺寸格式错误（" ++ s ++ "），需为WxH格式") := by
    simp [validate_image_size, h]
  have hne : ("尺寸格式错误（" ++ s ++ "），需为WxH格式") ≠ "" := by
    intro hc
    have hl := congrArg String.length hc
    rw [String.length_append, String.length_append] at hl
    have h1 : "尺寸格式错误（".length = 7 := rfl
    have h2 : "），需为WxH格式".length = 9 := rfl
    have h3 : ("" : String).length = 0 := rfl
    omega
  refine ⟨hv, ?_, ?_⟩
  · rw [hv]
    exact hne
  · simp only [resolvedSize, hv]
    rw [if_pos hne]

/-- C8 witness: the concrete size string "abc" does not match the pattern,
falls back to "1920x1920" and yields a warning. -/
theorem nonmatching_size_falls_back_witness :
    validate_image_size "abc" =
      ("1920x1920", "尺寸格式错误（" ++ "abc" ++ "），需为WxH格式") ∧
    (validate_image_size "abc").2 ≠ "" ∧
    resolvedSize "abc" = "1920x1920" :=
  nonmatching_size_falls_back "abc" rfl

/-- C7: the JSON request body contains exactly the fields model (the
configured model id), prompt (the stripped prompt, or the generic default
when the stripped prompt is empty), size (the resolved size), watermark
false, and an image field holding the reference URL list if and only if
that list is nonempty. -/
theorem request_payload_fields (model_version valid_size prompt : String)
    (image_urls : List String) :
    (buildPayload model_version valid_size prompt image_urls).model = model_version ∧
    (buildPayload model_version valid_size prompt image_urls).prompt =
      (if prompt.trim = "" then "高质量高清图片" else prompt.trim) ∧
    (buildPayload model_version valid_size prompt image_urls).size = valid_size ∧
    (buildPayload model_version valid_size prompt image_urls).watermark = false ∧
    ((buildPayload model_version valid_size prompt image_urls).image = some image_urls
      ↔ image_urls ≠ []) ∧
    ((buildPayload model_version valid_size prompt image_urls).image = none
      ↔ image_urls = []) := by
  cases image_urls with
  | nil => simp [buildPayload]
  | cons a l => simp [buildPayload]

/-- C10: whenever the configured retention duration is nonpositive, the
sweep returns before acquiring the lock, deletes nothing, and leaves the
whole sweep state (including the last-sweep timestamp) unchanged. -/
theorem sweep_disabled_when_retention_nonpositive (st : SweepState) (now : ℚ)
    (h : st.retention_hours ≤ 0) :
    (cleanup_temp_files st now).state = st ∧
    (cleanup_temp_files st now).lockAcquired = false ∧
    (cleanup_temp_files st now).deleted = [] := by
  rw [cleanup_temp_files, if_pos h]
  exact ⟨rfl, rfl, rfl⟩

/-- C10 witness: with retention -1 hour and a file old enough that an
enabled sweep would delete it, nothing happens at all. -/
theorem sweep_disabled_when_retention_nonpositive_witness :
    (cleanup_temp_files ⟨-1, 0, [("stale.jpg", 0)], true⟩ 1000000).state =
      ⟨-1, 0, [("stale.jpg", 0)], true⟩ ∧
    (cleanup_temp_files ⟨-1, 0, [("stale.jpg", 0)], true⟩ 1000000).lockAcquired = false ∧
    (cleanup_temp_files ⟨-1, 0, [("stale.jpg", 0)], true⟩ 1000000).deleted = [] :=
  sweep_disabled_when_retention_nonpositive ⟨-1, 0, [("stale.jpg", 0)], true⟩ 1000000
    (by norm_num)

/-- C1: every command that passes admission (cooldown not hit, user not
already processing, nonempty input, i.e. the path on which the user is
added to the processing set) ends with the user's processing flag absent
from the processing set, whatever the provider call and the download
returned. -/
theorem processing_flag_cleared_after_admitted_command
    (st : GuardState) (user_id : String) (now : ℚ)
    (real_prompt : String) (image_urls : List String)
    (api_key model_version valid_size : String)
    (resp : ApiResponse) (dl : DownloadResult) (hasMsgId : Bool)
    (hcool : cooldownHit st user_id now = false)
    (hproc : user_id ∉ st.processing_users)
    (hinput : ¬ (real_prompt = "" ∧ image_urls = [])) :
    user_id ∉ (generate_image st user_id now real_prompt image_urls
        api_key model_version valid_size resp dl hasMsgId).state.processing_users := by
  unfold generate_image
  simp only [hcool, Bool.false_eq_true, if_false]
  rw [if_neg hproc, if_neg hinput]
  split
  · simpa [admitFinally_cons_self] using hproc
  · split <;> simpa [admitFinally_cons_self] using hproc

/-- C1 witness: a concrete admitted command (fresh user, prompt "blue sky",
provider network failure) leaves the processing set without the user. -/
theorem processing_flag_cleared_after_admitted_command_witness :
    "u" ∉ (generate_image ⟨[], []⟩ "u" 0 "blue sky" [] "k" "m" "4096x4096"
        (ApiResponse.netFail "connection reset") (DownloadResult.fail "x")
        false).state.processing_users :=
  processing_flag_cleared_after_admitted_command ⟨[], []⟩ "u" 0 "blue sky" []
    "k" "m" "4096x4096" (ApiResponse.netFail "connection reset")
    (DownloadResult.fail "x") false rfl (by simp) (by simp)

/-- C3 counterexample: a user with an in-flight job and no recorded last
operation issues a command; it is rejected with the duplicate-job message,
yet the user's last-operation timestamp is written anyway (none before,
100 after), contradicting the claim that admission-rejected commands leave
the timestamp unchanged. -/
theorem duplicate_rejection_updates_timestamp :
    (generate_image ⟨[], ["u"]⟩ "u" 100 "cat" [] "k" "m" "4096x4096"
        (ApiResponse.netFail "boom") (DownloadResult.fail "boom") false).replies =
      [Reply.plain "有正在进行的生图任务，请稍候"] ∧
    (⟨[], ["u"]⟩ : GuardState).last_operations.lookup "u" = none ∧
    (generate_image ⟨[], ["u"]⟩ "u" 100 "cat" [] "k" "m" "4096x4096"
        (ApiResponse.netFail "boom")
        (DownloadResult.fail "boom") false).state.last_operations.lookup "u" =
      some 100 :=
  ⟨rfl, rfl, rfl⟩

/-- C3 amended: the per-user cooldown timestamp is updated on every command
that passes the cooldown check, including commands subsequently rejected at
admission as duplicate-in-flight or empty-input; only a command rejected by
the cooldown check itself leaves the timestamp unchanged.  The 10-second
window is therefore measured from the user's last command that passed the
cooldown check, not from the last accepted request. -/
theorem last_operation_timestamp_update_frame
    (st : GuardState) (user_id : String) (now : ℚ)
    (real_prompt : String) (image_urls : List String)
    (api_key model_version valid_size : String)
    (resp : ApiResponse) (dl : DownloadResult) (hasMsgId : Bool) :
    (generate_image st user_id now real_prompt image_urls
        api_key model_version valid_size resp dl hasMsgId).state.last_operations =
      (if cooldownHit st user_id now then st.last_operations
       else dictInsert st.last_operations user_id now) := by
  unfold generate_image
  cases h : cooldownHit st user_id now with
  | true => simp
  | false =>
    simp only [Bool.false_eq_true, if_false]
    by_cases hp : user_id ∈ st.processing_users
    · rw [if_pos hp]
    · rw [if_neg hp]
      by_cases hi : real_prompt = "" ∧ image_urls = []
      · rw [if_pos hi]
      · rw [if_neg hi]
        split
        · rfl
        · split <;> rfl

/-- C4: a user whose id is in the processing set is rejected with the
duplicate-job message and no outbound generation request is made, even
when the cooldown has passed (no recent last operation). -/
theorem inflight_duplicate_rejected_after_cooldown
    (st : GuardState) (user_id : String) (now : ℚ)
    (real_prompt : String) (image_urls : List String)
    (api_key model_version valid_size : String)
    (resp : ApiResponse) (dl : DownloadResult) (hasMsgId : Bool)
    (hproc : user_id ∈ st.processing_users)
    (hcool : cooldownHit st user_id now = false) :
    (generate_image st user_id now real_prompt image_urls
        api_key model_version valid_size resp dl hasMsgId).replies =
      [Reply.plain "有正在进行的生图任务，请稍候"] ∧
    (generate_image st user_id now real_prompt image_urls
        api_key model_version valid_size resp dl hasMsgId).apiCalled = false ∧
    (generate_image st user_id now real_prompt image_urls
        api_key model_version valid_size resp dl hasMsgId).fileCreated = none := by
  unfold generate_image
  simp only [hcool, Bool.false_eq_true, if_false]
  rw [if_pos hproc]
  exact ⟨rfl, rfl, rfl⟩

/-- C4 witness: "u" is processing, the last operation happened 20 seconds
ago (more than the 10-second cooldown): the command is still rejected as a
duplicate and no request goes out. -/
theorem inflight_duplicate_rejected_after_cooldown_witness :
    (10 : ℚ) < 20 - 0 ∧
    (generate_image ⟨[("u", 0)], ["u"]⟩ "u" 20 "cat" [] "k" "m" "4096x4096"
        (ApiResponse.netFail "boom") (DownloadResult.fail "boom") false).replies =
      [Reply.plain "有正在进行的生图任务，请稍候"] ∧
    (generate_image ⟨[("u", 0)], ["u"]⟩ "u" 20 "cat" [] "k" "m" "4096x4096"
        (ApiResponse.netFail "boom") (DownloadResult.fail "boom") false).apiCalled = false ∧
    (generate_image ⟨[("u", 0)], ["u"]⟩ "u" 20 "cat" [] "k" "m" "4096x4096"
        (ApiResponse.netFail "boom")
        (DownloadResult.fail "boom") false).fileCreated = none :=
  ⟨by norm_num,
   inflight_duplicate_rejected_after_cooldown ⟨[("u", 0)], ["u"]⟩ "u" 20 "cat" []
     "k" "m" "4096x4096" (ApiResponse.netFail "boom") (DownloadResult.fail "boom")
     false (by simp) (by norm_num [cooldownHit, List.lookup])⟩

/-- C5: when an admitted command gets a provider response with a non-200
status and error envelope code "TooManyRequests", the user-visible reply
carries the rate-limit mapped category 调用频率超限 prefixed to the provider
message, and no image file is created. -/
theorem rate_limited_error_reply_no_file
    (st : GuardState) (user_id : String) (now : ℚ)
    (real_prompt : String) (image_urls : List String)
    (api_key model_version valid_size : String) (status : Nat) (m : String)
    (data : List String) (dl : DownloadResult) (hasMsgId : Bool)
    (hcool : cooldownHit st user_id now = false)
    (hproc : user_id ∉ st.processing_users)
    (hinput : ¬ (real_prompt = "" ∧ image_urls = []))
    (hkey : api_key ≠ "")
    (hstatus : status ≠ 200) :
    (generate_image st user_id now real_prompt image_urls
        api_key model_version valid_size
        (ApiResponse.json ⟨status, ⟨some "TooManyRequests", some m⟩, data⟩)
        dl hasMsgId).replies =
      [Reply.plain "开始生成图片...",
       Reply.plain ("生成失败：" ++ ("API调用失败：" ++ ("调用频率超限" ++ "：" ++ m)))] ∧
    (generate_image st user_id now real_prompt image_urls
        api_key model_version valid_size
        (ApiResponse.json ⟨status, ⟨some "TooManyRequests", some m⟩, data⟩)
        dl hasMsgId).fileCreated = none := by
  have hapi : call_seedream_api api_key model_version valid_size real_prompt image_urls
      (ApiResponse.json ⟨status, ⟨some "TooManyRequests", some m⟩, data⟩) =
      Except.error ("API调用失败：" ++ ("调用频率超限" ++ "：" ++ m)) := by
    rw [call_seedream_api, if_neg hkey]
    simp [hstatus, error_mapping, List.lookup]
  unfold generate_image
  simp only [hcool, Bool.false_eq_true, if_false]
  rw [if_neg hproc, if_neg hinput, hapi]
  exact ⟨rfl, rfl⟩

/-- C5 witness: HTTP 429 with code "TooManyRequests" and message
"rate limited" yields the mapped rate-limit reply and no file. -/
theorem rate_limited_error_reply_no_file_witness :
    (generate_image ⟨[], []⟩ "u" 0 "blue sky" [] "k" "m" "4096x4096"
        (ApiResponse.json ⟨429, ⟨some "TooManyRequests", some "rate limited"⟩, []⟩)
        (DownloadResult.ok "/data/images/a.jpg") false).replies =
      [Reply.plain "开始生成图片...",
       Reply.plain ("生成失败：" ++
         ("API调用失败：" ++ ("调用频率超限" ++ "：" ++ "rate limited")))] ∧
    (generate_image ⟨[], []⟩ "u" 0 "blue sky" [] "k" "m" "4096x4096"
        (ApiResponse.json ⟨429, ⟨some "TooManyRequests", some "rate limited"⟩, []⟩)
        (DownloadResult.ok "/data/images/a.jpg") false).fileCreated = none :=
  rate_limited_error_reply_no_file ⟨[], []⟩ "u" 0 "blue sky" [] "k" "m" "4096x4096"
    429 "rate limited" [] (DownloadResult.ok "/data/images/a.jpg") false
    rfl (by simp) (by simp) (by simp) (by simp)

/-- C9: the extracted reference image URL list contains no duplicate entry,
and it is exactly the order-of-first-occurrence deduplication of the raw
URL sequence of the message's image components: each distinct URL appears
once, at the position of its first occurrence, in message order (it is in
particular a subsequence of the raw sequence with the same members). -/
theorem extract_image_urls_first_occurrence (comps : List MsgComponent) :
    (extract_image_url_list comps).Nodup ∧
    extract_image_url_list comps = specKeepFirstOccurrence (rawUrls comps) ∧
    (extract_image_url_list comps).Sublist (rawUrls comps) ∧
    ∀ u, u ∈ extract_image_url_list comps ↔ u ∈ rawUrls comps := by
  refine ⟨extractAux_nodup comps [] List.nodup_nil, ?_, ?_, ?_⟩
  · rw [extract_image_url_list, extractAux_eq_dedupSeen, dedupSeen_nil_eq_spec]
  · obtain ⟨ext, he, hs⟩ := extractAux_append_sublist comps []
    rw [extract_image_url_list, he]
    simpa using hs
  · intro u
    rw [extract_image_url_list, mem_extractAux]
    simp

/-- C6: when a sweep does real work (retention enabled, at least one hour
since the last completed sweep, directory present), every file whose
modification-time age exceeds the retention window is deleted and absent
afterwards, every file within the window is kept and not deleted, and a
second sweep started within one hour of the working sweep deletes nothing
and changes nothing. -/
theorem sweep_deletes_expired_once_per_hour (st : SweepState) (now now₂ : ℚ)
    (hr : 0 < st.retention_hours)
    (hint : ¬ now - st.last_cleanup_time < CLEANUP_INTERVAL)
    (hdir : st.dirExists = true) :
    (∀ f ∈ st.files, now - f.2 > st.retention_hours * 3600 →
        f ∈ (cleanup_temp_files st now).deleted ∧
        f ∉ (cleanup_temp_files st now).state.files) ∧
    (∀ f ∈ st.files, ¬ now - f.2 > st.retention_hours * 3600 →
        f ∈ (cleanup_temp_files st now).state.files ∧
        f ∉ (cleanup_temp_files st now).deleted) ∧
    (now₂ - now < CLEANUP_INTERVAL →
        (cleanup_temp_files (cleanup_temp_files st now).state now₂).deleted = [] ∧
        (cleanup_temp_files (cleanup_temp_files st now).state now₂).state =
          (cleanup_temp_files st now).state) := by
  have hc : cleanup_temp_files st now =
      ⟨{ st with
          last_cleanup_time := now
          files := st.files.filter
            (fun f => !(decide (now - f.2 > st.retention_hours * 3600))) },
       true,
       st.files.filter (fun f => decide (now - f.2 > st.retention_hours * 3600))⟩ := by
    rw [cleanup_temp_files, if_neg (not_le.mpr hr), if_neg hint,
      if_neg (by simp [hdir])]
  refine ⟨?_, ?_, ?_⟩
  · intro f hf hold
    rw [hc]
    exact ⟨by simp [List.mem_filter, hf, hold], by simp [List.mem_filter, hold]⟩
  · intro f hf hnew
    rw [hc]
    exact ⟨by simp [List.mem_filter, hf, hnew], by simp [List.mem_filter, hnew]⟩
  · intro h2
    rw [hc]
    refine ⟨?_, ?_⟩ <;>
      rw [cleanup_temp_files, if_neg (not_le.mpr hr), if_pos h2]

/-- C6 witness: retention one hour, last sweep at time 0, sweep at time
10000: the 9900-second-old file is deleted, the 1000-second-old file is
kept, and a second sweep at time 10500 does nothing. -/
theorem sweep_deletes_expired_once_per_hour_witness :
    (("old.jpg", (100 : ℚ)) ∈
       (cleanup_temp_files ⟨1, 0, [("old.jpg", 100), ("new.jpg", 9000)], true⟩
         10000).deleted ∧
     ("old.jpg", (100 : ℚ)) ∉
       (cleanup_temp_files ⟨1, 0, [("old.jpg", 100), ("new.jpg", 9000)], true⟩
         10000).state.files) ∧
    (("new.jpg", (9000 : ℚ)) ∈
       (cleanup_temp_files ⟨1, 0, [("old.jpg", 100), ("new.jpg", 9000)], true⟩
         10000).state.files ∧
     ("new.jpg", (9000 : ℚ)) ∉
       (cleanup_temp_files ⟨1, 0, [("old.jpg", 100), ("new.jpg", 9000)], true⟩
         10000).deleted) ∧
    ((cleanup_temp_files
        (cleanup_temp_files ⟨1, 0, [("old.jpg", 100), ("new.jpg", 9000)], true⟩
          10000).state 10500).deleted = [] ∧
     (cleanup_temp_files
        (cleanup_temp_files ⟨1, 0, [("old.jpg", 100), ("new.jpg", 9000)], true⟩
          10000).state 10500).state =
       (cleanup_temp_files ⟨1, 0, [("old.jpg", 100), ("new.jpg", 9000)], true⟩
         10000).state) := by
  have h := sweep_deletes_expired_once_per_hour
    ⟨1, 0, [("old.jpg", 100), ("new.jpg", 9000)], true⟩ 10000 10500
    (by norm_num) (by norm_num [CLEANUP_INTERVAL]) rfl
  exact ⟨h.1 ("old.jpg", 100) (by simp) (by norm_num),
    h.2.1 ("new.jpg", 9000) (by simp) (by norm_num),
    h.2.2 (by norm_num [CLEANUP_INTERVAL])⟩

end Seedream
